import Mathlib

/-!
Verification of the `cwn` repository core against its specification.

The development shallowly embeds:
- the `Chain` / `Complex` data model of `data_exploration/data.py`
  (reverse node-tuple mappings, the consolidation of `shared_faces` /
  `shared_cofaces`, and the `get_inputs` / `get_labels` query interface);
- the chain message-passing engine exercised by `mp/test_smp.py`.

Python dictionaries are modelled as association lists in which later
insertions shadow earlier ones (the list is built reversed and read with
`List.lookup`, so the first hit is the last insertion).  A raised Python
exception (`KeyError`, `IndexError`, dereference of `None`) is modelled by
`Option`: a computation that would raise returns `none`.  Torch integer
tensors become `List Nat` / `List Int`; a `[2, E]` index tensor becomes a
pair of parallel lists.
-/

namespace CWN

/-- A feature row (one simplex's feature vector), with integer entries. -/
abbrev Vec := List Int

/-- A feature matrix: one row per simplex. -/
abbrev Mat := List Vec

/-- The zero vector of the given width. -/
def zeroVec (n : Nat) : Vec := List.replicate n 0

/-- Elementwise vector addition. -/
def vecAdd (a b : Vec) : Vec := List.zipWith (· + ·) a b

/-- Elementwise matrix addition (used to state `up_msg + down_msg` checks). -/
def matAdd (a b : Mat) : Mat := List.zipWith vecAdd a b

/-- An adjacency index: the pair of parallel `src`/`dst` id lists
(a torch tensor of shape `[2, num_connections]`). -/
abbrev AdjIndex := List Nat × List Nat

/-- The directed edges of an adjacency index, as `(src, dst)` pairs. -/
def edgeList (idx : AdjIndex) : List (Nat × Nat) := idx.1.zip idx.2

/-- `tuple(sorted(set(l)))`: the ascending, duplicate-free node tuple of a
node list. -/
def sortedNodeSet (l : List Nat) : List Nat := (List.insertionSort (· ≤ ·) l).dedup

/-- Exception-propagating traversal: the Python loop
`for v in l: out.append(f(v))` where `f` may raise (= return `none`). -/
def optMapM {α β : Type} (f : α → Option β) : List α → Option (List β)
  | [] => some []
  | a :: as => (f a).bind (fun b => (optMapM f as).bind (fun bs => some (b :: bs)))

/-- `upper_adjs` of a chain: dictionary from the node tuple of simplex `a`
to a dictionary from the node tuple of simplex `b` to the node tuple of the
common higher-order simplex (the latter is used as a key of the reverse
mapping one order up, exactly as in `_consolidate`). -/
abbrev AdjDict := List (List Nat × List (List Nat × List Nat))

/-- `Chain` of `data_exploration/data.py`: one order of simplices with its
features, adjacency indices, labels, id-to-nodes mapping and `upper_adjs`.
All payload fields are optional, as in the Python constructor.  (`oriented`
and the unimplemented `orient` / Hodge-Laplacian / feature-initialisation
stubs play no role in the verified surface and are omitted.) -/
structure Chain where
  order : Nat
  x : Option Mat
  upper_index : Option AdjIndex
  lower_index : Option AdjIndex
  y : Option (List Int)
  mapping : Option (List (List Nat))
  upper_adjs : Option AdjDict
deriving DecidableEq

/-- The reverse mapping built by `_consolidate` for one order:
`for key in range(map.shape[0]) : rev[tuple(map[key])] = key`.
Keys are the node tuples exactly as stored in `mapping` (not sorted);
later duplicate keys shadow earlier ones, hence the `reverse`. -/
def buildRevMap (mapping : List (List Nat)) : List (List Nat × Nat) :=
  (mapping.enum.map (fun p => (p.2, p.1))).reverse

/-- One iteration of the `shared_faces` loop of `_consolidate`: for a
lower-adjacency edge `(a, b)` one order up, look the sorted intersection of
the two node sets up in the reverse mapping of the lower order.
`none` models the Python exceptions (out-of-range id, `KeyError`). -/
def faceEntry (revLow : List (List Nat × Nat)) (mapHigh : List (List Nat))
    (e : Nat × Nat) : Option Nat := do
  let na ← mapHigh[e.1]?
  let nb ← mapHigh[e.2]?
  List.lookup (sortedNodeSet (na.inter nb)) revLow

/-- One iteration of the `shared_cofaces` loop of `_consolidate`: for an
upper-adjacency edge `(a, b)`, resolve `upper_adjs[nodes a][nodes b]` and
look the resulting node tuple up in the reverse mapping one order up.
The `upper_adjs` dictionary is dereferenced only here, inside the loop
body, exactly as in the source. -/
def cofaceEntry (revHigh : List (List Nat × Nat)) (mapCur : List (List Nat))
    (adjs : Option AdjDict) (e : Nat × Nat) : Option Nat := do
  let na ← mapCur[e.1]?
  let nb ← mapCur[e.2]?
  let d ← adjs
  let inner ← List.lookup na d
  let key ← List.lookup nb inner
  List.lookup key revHigh

/-- The four tables computed by `Complex._consolidate`:
`shared_faces[1]`, `shared_faces[2]`, `shared_cofaces[0]`, `shared_cofaces[1]`. -/
structure Tables where
  shared_faces1 : List Nat
  shared_faces2 : List Nat
  shared_cofaces0 : List Nat
  shared_cofaces1 : List Nat
deriving DecidableEq

/-- `Complex._consolidate` for the fixed orders 0..2: build the reverse
mapping of every order (dereferencing every chain's `mapping`), then for
each order `k` in 0..1 walk the lower-adjacency edges of chain `k+1` and
the upper-adjacency edges of chain `k`, appending one table entry per edge.
`none` models any exception raised during consolidation. -/
def consolidate (nodes edges triangles : Chain) : Option Tables := do
  let m0 ← nodes.mapping
  let m1 ← edges.mapping
  let m2 ← triangles.mapping
  let li1 ← edges.lower_index
  let sf1 ← optMapM (faceEntry (buildRevMap m0) m1) (edgeList li1)
  let ui0 ← nodes.upper_index
  let sc0 ← optMapM (cofaceEntry (buildRevMap m1) m0 nodes.upper_adjs) (edgeList ui0)
  let li2 ← triangles.lower_index
  let sf2 ← optMapM (faceEntry (buildRevMap m1) m2) (edgeList li2)
  let ui1 ← edges.upper_index
  let sc1 ← optMapM (cofaceEntry (buildRevMap m2) m1 edges.upper_adjs) (edgeList ui1)
  pure ⟨sf1, sf2, sc0, sc1⟩

/-- `Complex` of `data_exploration/data.py` after a successful
construction: the three chains (orders 0, 1, 2), the complex-wide label and
the consolidated tables. -/
structure Complex where
  nodes : Chain
  edges : Chain
  triangles : Chain
  y : Option (List Int)
  shared_faces1 : List Nat
  shared_faces2 : List Nat
  shared_cofaces0 : List Nat
  shared_cofaces1 : List Nat
deriving DecidableEq

/-- `Complex.__init__`: store the chains and the label and run
`_consolidate`; `none` models a construction-time exception. -/
def Complex.init (nodes edges triangles : Chain) (y : Option (List Int)) :
    Option Complex := do
  let t ← consolidate nodes edges triangles
  pure ⟨nodes, edges, triangles, y,
        t.shared_faces1, t.shared_faces2, t.shared_cofaces0, t.shared_cofaces1⟩

/-- `self.min_order` (fixed to 0 in the source). -/
def Complex.min_order (_ : Complex) : Int := 0

/-- `self.max_order` (fixed to 2 in the source). -/
def Complex.max_order (_ : Complex) : Int := 2

/-- The `self.chains` dictionary `{0: nodes, 1: edges, 2: triangles}`;
`none` models a missing key.  The query order is an integer, as in Python
(so that out-of-range includes negative orders). -/
def Complex.chain (c : Complex) (order : Int) : Option Chain :=
  if order = 0 then some c.nodes
  else if order = 1 then some c.edges
  else if order = 2 then some c.triangles
  else none

/-- The `self.shared_faces` dictionary, keyed by order (keys 1 and 2). -/
def Complex.sfTable (c : Complex) (order : Int) : Option (List Nat) :=
  if order = 1 then some c.shared_faces1
  else if order = 2 then some c.shared_faces2
  else none

/-- The `self.shared_cofaces` dictionary, keyed by order (keys 0 and 1). -/
def Complex.scTable (c : Complex) (order : Int) : Option (List Nat) :=
  if order = 0 then some c.shared_cofaces0
  else if order = 1 then some c.shared_cofaces1
  else none

/-- Errors surfaced by the query interface: the explicit unsupported-order
`NotImplementedError` of the source, and the runtime indexing error a torch
`index_select` raises on an out-of-range id. -/
inductive GErr where
  | unsupportedOrder
  | indexError
deriving DecidableEq

/-- The tuple returned by `Complex.get_inputs`. -/
structure Inputs where
  x : Option Mat
  upper_index : Option AdjIndex
  upper_features : Option Mat
  lower_index : Option AdjIndex
  lower_features : Option Mat
deriving DecidableEq

/-- Decidable equality of query results (for evaluating concrete calls). -/
instance {ε α : Type} [DecidableEq ε] [DecidableEq α] : DecidableEq (Except ε α) :=
  fun a b =>
    match a, b with
    | Except.error u, Except.error v =>
      if h : u = v then isTrue (by rw [h])
      else isFalse (fun hc => h (Except.error.inj hc))
    | Except.ok u, Except.ok v =>
      if h : u = v then isTrue (by rw [h])
      else isFalse (fun hc => h (Except.ok.inj hc))
    | Except.error _, Except.ok _ => isFalse (fun hc => Except.noConfusion hc)
    | Except.ok _, Except.error _ => isFalse (fun hc => Except.noConfusion hc)

/-- `torch.index_select(x, 0, idx)`: the rows of `x` at the ids of `idx`,
in order; `none` if an id is out of range. -/
def index_select (x : Mat) (idx : List Nat) : Option Mat :=
  optMapM (fun i => x[i]?) idx

/-- The neighbor-feature gather of `get_inputs`: keep `None` features as
`None`, otherwise `index_select` them through the given table; an
out-of-range id surfaces as an index error. -/
def selectFeatures (featOpt : Option Mat) (tbl : List Nat) :
    Except GErr (Option Mat) :=
  match featOpt with
  | none => Except.ok none
  | some f =>
    match index_select f tbl with
    | none => Except.error GErr.indexError
    | some sel => Except.ok (some sel)

/-- Propagate a gather error, or build the result from the gathered rows. -/
def withSelected {α : Type} (s : Except GErr (Option Mat))
    (k : Option Mat → Except GErr α) : Except GErr α :=
  match s with
  | Except.error ε => Except.error ε
  | Except.ok v => k v

/-- `Complex.get_inputs`, with the source's branch structure specialised to
the fixed orders (`min_order = 0`, `max_order = 2`, chains
`{0: nodes, 1: edges, 2: triangles}`): below the top order the chain's own
`upper_index` is returned as stored and the order+1 features are gathered
through `shared_cofaces[order]`; above the bottom order the chain's
`lower_index` is returned and the order-1 features are gathered through
`shared_faces[order]`; any other order raises the unsupported-order error. -/
def Complex.get_inputs (c : Complex) (order : Int) : Except GErr Inputs :=
  if order = 0 then
    withSelected (selectFeatures c.edges.x c.shared_cofaces0) (fun uf =>
      Except.ok ⟨c.nodes.x, c.nodes.upper_index, uf, none, none⟩)
  else if order = 1 then
    withSelected (selectFeatures c.triangles.x c.shared_cofaces1) (fun uf =>
      withSelected (selectFeatures c.nodes.x c.shared_faces1) (fun lf =>
        Except.ok ⟨c.edges.x, c.edges.upper_index, uf, c.edges.lower_index, lf⟩))
  else if order = 2 then
    withSelected (selectFeatures c.edges.x c.shared_faces2) (fun lf =>
      Except.ok ⟨c.triangles.x, none, none, c.triangles.lower_index, lf⟩)
  else Except.error GErr.unsupportedOrder

/-- `Complex.get_labels`: the complex-wide label when `order` is `None`,
the per-simplex labels of the chain otherwise; unsupported-order error for
an order outside the chains dictionary. -/
def Complex.get_labels (c : Complex) (order : Option Int) :
    Except GErr (Option (List Int)) :=
  match order with
  | none => Except.ok c.y
  | some o =>
    match c.chain o with
    | some ch => Except.ok ch.y
    | none => Except.error GErr.unsupportedOrder

/-- Modelled from the spec: `ChainMessagePassing` of `mp/smp.py` is not
part of the sources; only its construction parameters `up_msg_size` and
`down_msg_size` (the channel widths used to size zero fallbacks) are
specified. -/
structure ChainMessagePassing where
  up_msg_size : Nat
  down_msg_size : Nat
deriving DecidableEq

/-- Modelled from the spec: one adjacency side of `propagate` of
`mp/smp.py` (not under the sources).  Per the spec, with the default
message policy the message of a directed edge is the source simplex's
feature row; messages are aggregated per destination by summation
(a scatter-add over the edge list into a zero-initialised output with one
row per simplex), and an absent index yields the all-zero matrix with
`msgSize` channels.  Edge attributes do not enter the default message. -/
def propagateSide (msgSize : Nat) (index : Option AdjIndex) (x : Mat) : Mat :=
  match index with
  | none => List.replicate x.length (zeroVec msgSize)
  | some idx =>
    (edgeList idx).foldl
      (fun acc e =>
        acc.set e.2 (vecAdd (acc.getD e.2 (zeroVec msgSize))
                            (x.getD e.1 (zeroVec msgSize))))
      (List.replicate x.length (zeroVec msgSize))

/-- Modelled from the spec: `ChainMessagePassing.propagate` of `mp/smp.py`
(not under the sources).  Computes the aggregated upper and lower messages
for every simplex; the attribute arguments take part in the pluggable
message policy only, not in the default one fixed by the test scenarios. -/
def ChainMessagePassing.propagate (cmp : ChainMessagePassing)
    (up_index down_index : Option AdjIndex) (x : Mat)
    (up_attr down_attr : Option Mat) : Mat × Mat :=
  let _ := up_attr
  let _ := down_attr
  (propagateSide cmp.up_msg_size up_index x,
   propagateSide cmp.down_msg_size down_index x)

/-- `true` when simplex `i` has no incoming directed edge in the (possibly
absent) adjacency index. -/
def noIncoming (index : Option AdjIndex) (i : Nat) : Bool :=
  match index with
  | none => true
  | some idx => (edgeList idx).all (fun e => e.2 != i)

/-- The reverse mapping as the specification describes it: keyed by the
sorted node tuple of each simplex (compared against `buildRevMap`, which
keys by the tuple as stored). -/
def specRevMap (mapping : List (List Nat)) : List (List Nat × Nat) :=
  (mapping.enum.map (fun p => (sortedNodeSet p.2, p.1))).reverse

/-! ### Concrete instances (test-suite data and small complexes) -/

/-- Edge-level upper adjacency of the house graph (`test_propagate_in_cmp`):
the triangle edges 0, 1, 2 are pairwise upper adjacent. -/
def houseUp : AdjIndex := ([0, 1, 0, 2, 1, 2], [1, 0, 2, 0, 2, 1])

/-- Edge-level lower adjacency of the house graph. -/
def houseDown : AdjIndex :=
  ([0, 1, 0, 2, 1, 2, 2, 3, 3, 4, 4, 5, 2, 5, 0, 3, 1, 5],
   [1, 0, 2, 0, 2, 1, 3, 2, 4, 3, 5, 4, 5, 2, 3, 0, 5, 1])

/-- Dummy scalar features of the six house edges. -/
def houseX : Mat := [[1], [2], [3], [4], [5], [6]]

/-- Per-edge upper attributes of the house test. -/
def houseUpAttr : Mat := [[1], [1], [2], [2], [3], [3]]

/-- Per-edge lower attributes of the house test. -/
def houseDownAttr : Mat :=
  [[1], [1], [2], [2], [3], [3], [4], [4], [5], [5], [6], [6], [7], [7], [8], [8], [9], [9]]

/-- Node chain of a single-triangle complex, without features. -/
def tnN : Chain := ⟨0, none, some ([], []), none, none, some [[0], [1], [2]], some []⟩

/-- Edge chain of the single-triangle complex: edges {0,1}, {0,2}, {1,2}
with features; edges 0 and 1 are upper adjacent through the triangle. -/
def teF : Chain :=
  ⟨1, some [[10], [20], [30]], some ([0, 1], [1, 0]), some ([], []), none,
   some [[0, 1], [0, 2], [1, 2]],
   some [([0, 1], [([0, 2], [0, 1, 2])]), ([0, 2], [([0, 1], [0, 1, 2])])]⟩

/-- Triangle chain of the single-triangle complex, without features. -/
def ttN : Chain := ⟨2, none, none, some ([], []), none, some [[0, 1, 2]], none⟩

/-- The complex built from `tnN`, `teF`, `ttN`. -/
def tCN : Complex := ⟨tnN, teF, ttN, none, [], [], [], [0, 0]⟩

/-- Node chain of the single-triangle complex, with features and labels. -/
def tnF : Chain :=
  ⟨0, some [[1], [2], [3]], some ([], []), none, some [4, 5, 6],
   some [[0], [1], [2]], some []⟩

/-- Triangle chain of the single-triangle complex, with a feature. -/
def ttF : Chain := ⟨2, some [[7]], none, some ([], []), some [9], some [[0, 1, 2]], none⟩

/-- The complex built from `tnF`, `teF`, `ttF`. -/
def tCF : Complex := ⟨tnF, teF, ttF, some [1], [], [], [], [0, 0]⟩

/-- Node chain of the unsorted-mapping example (nodes 0..3). -/
def un : Chain := ⟨0, none, some ([], []), none, none, some [[0], [1], [2], [3]], none⟩

/-- Edge chain whose single simplex {0,1} is stored as the tuple (1, 0):
its reverse-mapping key differs from the sorted node tuple. -/
def ue : Chain := ⟨1, none, some ([], []), some ([], []), none, some [[1, 0]], none⟩

/-- Triangle chain with two triangles {0,1,2} and {0,1,3} that are lower
adjacent through the shared edge {0,1}. -/
def ut : Chain :=
  ⟨2, none, none, some ([0, 1], [1, 0]), none, some [[0, 1, 2], [0, 1, 3]], none⟩

/-- Node chain of the two-triangle complex (upper adjacency empty, so
`upper_adjs = None` is never dereferenced). -/
def dn : Chain := ⟨0, none, some ([], []), none, none, some [[0], [1], [2], [3]], none⟩

/-- Edge chain of the two-triangle complex holding only the shared edge
{0,1} (stored sorted), with `upper_adjs = None` and empty adjacencies. -/
def de : Chain := ⟨1, none, some ([], []), some ([], []), none, some [[0, 1], [1, 0]], none⟩

/-- Triangle chain with triangles {0,1,2} and {0,1,3}, lower adjacent. -/
def dt : Chain :=
  ⟨2, none, none, some ([0, 1], [1, 0]), none, some [[0, 1, 2], [0, 1, 3]], none⟩

/-- The complex built from `dn`, `de`, `dt`. -/
def dC : Complex := ⟨dn, de, dt, none, [], [0, 0], [], []⟩

/-- Edge chain lacking the shared edge {0,1} of the triangles of `dt`:
the face lookup of their intersection has no matching simplex id. -/
def fe : Chain := ⟨1, none, some ([], []), some ([], []), none, some [[0, 2]], none⟩

/-- The value of `tCN.get_inputs 1` (order-2 features absent). -/
def tInN : Inputs :=
  ⟨some [[10], [20], [30]], some ([0, 1], [1, 0]), none, some ([], []), none⟩

/-- The value of `tCF.get_inputs 1` (features present at every order). -/
def tInF : Inputs :=
  ⟨some [[10], [20], [30]], some ([0, 1], [1, 0]), some [[7], [7]],
   some ([], []), some []⟩

/-! ### Helper lemmas -/

theorem optMapM_length {α β : Type} {f : α → Option β} :
    ∀ {l : List α} {r : List β}, optMapM f l = some r → r.length = l.length := by
  intro l
  induction l with
  | nil =>
    intro r h
    simp only [optMapM, Option.some.injEq] at h
    subst h
    rfl
  | cons a as ih =>
    intro r h
    simp only [optMapM, Option.bind_eq_some, Option.pure_def, Option.some.injEq] at h
    obtain ⟨b, _, bs, hbs, hr⟩ := h
    subst hr
    simp [ih hbs]

theorem optMapM_getElem? {α β : Type} {f : α → Option β} :
    ∀ {l : List α} {r : List β}, optMapM f l = some r →
      ∀ p : Nat, r[p]? = (l[p]?).bind f := by
  intro l
  induction l with
  | nil =>
    intro r h p
    simp only [optMapM, Option.some.injEq] at h
    subst h
    simp
  | cons a as ih =>
    intro r h p
    simp only [optMapM, Option.bind_eq_some, Option.pure_def, Option.some.injEq] at h
    obtain ⟨b, hb, bs, hbs, hr⟩ := h
    subst hr
    cases p with
    | zero => simpa using hb.symm
    | succ q => simpa using ih hbs q

theorem optMapM_mem_some {α β : Type} {f : α → Option β} :
    ∀ {l : List α} {r : List β}, optMapM f l = some r →
      ∀ {a : α}, a ∈ l → ∃ b, f a = some b := by
  intro l
  induction l with
  | nil =>
    intro r _ a ha
    exact absurd ha (List.not_mem_nil a)
  | cons x as ih =>
    intro r h a ha
    simp only [optMapM, Option.bind_eq_some, Option.pure_def, Option.some.injEq] at h
    obtain ⟨b, hb, bs, hbs, _⟩ := h
    rcases List.mem_cons.mp ha with rfl | hmem
    · exact ⟨b, hb⟩
    · exact ih hbs hmem

theorem getD_eq_of_lt {l : Mat} {i : Nat} (h : i < l.length) (d d' : Vec) :
    l.getD i d = l.getD i d' := by
  simp [List.getD_eq_getElem?_getD, List.getElem?_eq_getElem h]

theorem getD_set_self {l : Mat} {i : Nat} (h : i < l.length) (v d : Vec) :
    (l.set i v).getD i d = v := by
  simp [List.getD_eq_getElem?_getD, List.getElem?_set_self, h]

theorem getD_set_ne {l : Mat} {i j : Nat} (h : j ≠ i) (v d : Vec) :
    (l.set j v).getD i d = l.getD i d := by
  simp [List.getD_eq_getElem?_getD, List.getElem?_set_ne h]

theorem getD_replicate {n m : Nat} {i : Nat} (h : i < n) (d : Vec) :
    (List.replicate n (zeroVec m)).getD i d = zeroVec m := by
  simp [List.getD_eq_getElem?_getD, List.getElem?_replicate, h]

/-- Scatter-add characterisation: after folding all edges into the output,
a row `i` holds the fold of the messages of exactly the edges whose
destination is `i`, in edge-list order, on top of the row's initial value. -/
theorem scatter_foldl_getD (msg : Nat × Nat → Vec) (d : Vec) :
    ∀ (edges : List (Nat × Nat)) (base : Mat) (i : Nat), i < base.length →
      (edges.foldl (fun acc e => acc.set e.2 (vecAdd (acc.getD e.2 d) (msg e)))
          base).getD i [] =
      (edges.filter (fun e => e.2 = i)).foldl
          (fun acc e => vecAdd acc (msg e)) (base.getD i []) := by
  intro edges
  induction edges with
  | nil => intro base i _; rfl
  | cons e es ih =>
    intro base i hi
    have hlen : (base.set e.2 (vecAdd (base.getD e.2 d) (msg e))).length = base.length :=
      List.length_set base e.2 _
    by_cases he : e.2 = i
    · subst he
      have h1 : (base.set e.2 (vecAdd (base.getD e.2 d) (msg e))).getD e.2 [] =
          vecAdd (base.getD e.2 []) (msg e) := by
        rw [getD_set_self hi, getD_eq_of_lt hi d []]
      simp only [List.foldl_cons, List.filter_cons, decide_True, if_true]
      rw [ih _ e.2 (by rw [hlen]; exact hi), h1]
    · have h1 : (base.set e.2 (vecAdd (base.getD e.2 d) (msg e))).getD i [] =
          base.getD i [] := getD_set_ne he _ _
      simp only [List.foldl_cons, List.filter_cons]
      rw [if_neg (by simpa using he), ih _ i (by rw [hlen]; exact hi), h1]

/-- A present adjacency side of `propagate` computes, per simplex, the sum
of the source features of its incoming edges. -/
theorem propagateSide_some (m : Nat) (idx : AdjIndex) (x : Mat) (i : Nat)
    (hi : i < x.length) :
    (propagateSide m (some idx) x).getD i [] =
      ((edgeList idx).filter (fun e => e.2 = i)).foldl
        (fun acc e => vecAdd acc (x.getD e.1 (zeroVec m))) (zeroVec m) := by
  unfold propagateSide
  rw [scatter_foldl_getD (fun e => x.getD e.1 (zeroVec m)) (zeroVec m) (edgeList idx)
        (List.replicate x.length (zeroVec m)) i (by simpa using hi),
      getD_replicate hi]

/-- Inversion of a successful consolidation: every dereferenced field is
present and the four tables are the traversals of the edge lists. -/
theorem consolidate_inv {n e t : Chain} {tb : Tables}
    (h : consolidate n e t = some tb) :
    ∃ m0 m1 m2 li1 li2 ui0 ui1,
      n.mapping = some m0 ∧ e.mapping = some m1 ∧ t.mapping = some m2 ∧
      e.lower_index = some li1 ∧ t.lower_index = some li2 ∧
      n.upper_index = some ui0 ∧ e.upper_index = some ui1 ∧
      optMapM (faceEntry (buildRevMap m0) m1) (edgeList li1) = some tb.shared_faces1 ∧
      optMapM (cofaceEntry (buildRevMap m1) m0 n.upper_adjs) (edgeList ui0) =
        some tb.shared_cofaces0 ∧
      optMapM (faceEntry (buildRevMap m1) m2) (edgeList li2) = some tb.shared_faces2 ∧
      optMapM (cofaceEntry (buildRevMap m2) m1 e.upper_adjs) (edgeList ui1) =
        some tb.shared_cofaces1 := by
  simp only [consolidate, Option.pure_def, Option.bind_eq_bind, Option.bind_eq_some,
    Option.some.injEq] at h
  obtain ⟨m0, hm0, m1, hm1, m2, hm2, li1, hli1, sf1, hsf1, ui0, hui0, sc0, hsc0,
    li2, hli2, sf2, hsf2, ui1, hui1, sc1, hsc1, htb⟩ := h
  subst htb
  exact ⟨m0, m1, m2, li1, li2, ui0, ui1, hm0, hm1, hm2, hli1, hli2, hui0, hui1,
    hsf1, hsc0, hsf2, hsc1⟩

/-- Inversion of a successful construction: consolidation succeeded, its
tables are stored, and the chains and label are stored unmodified. -/
theorem init_inv_tables {n e t : Chain} {y : Option (List Int)} {c : Complex}
    (h : Complex.init n e t y = some c) :
    consolidate n e t =
      some ⟨c.shared_faces1, c.shared_faces2, c.shared_cofaces0, c.shared_cofaces1⟩ ∧
    c.nodes = n ∧ c.edges = e ∧ c.triangles = t ∧ c.y = y := by
  simp only [Complex.init, Option.pure_def, Option.bind_eq_bind, Option.bind_eq_some,
    Option.some.injEq] at h
  obtain ⟨tb, htb, hc⟩ := h
  subst hc
  exact ⟨htb, rfl, rfl, rfl, rfl⟩

/-- Combined inversion of a successful construction. -/
theorem init_inv {n e t : Chain} {y : Option (List Int)} {c : Complex}
    (h : Complex.init n e t y = some c) :
    ∃ m0 m1 m2 li1 li2 ui0 ui1,
      n.mapping = some m0 ∧ e.mapping = some m1 ∧ t.mapping = some m2 ∧
      e.lower_index = some li1 ∧ t.lower_index = some li2 ∧
      n.upper_index = some ui0 ∧ e.upper_index = some ui1 ∧
      optMapM (faceEntry (buildRevMap m0) m1) (edgeList li1) = some c.shared_faces1 ∧
      optMapM (cofaceEntry (buildRevMap m1) m0 n.upper_adjs) (edgeList ui0) =
        some c.shared_cofaces0 ∧
      optMapM (faceEntry (buildRevMap m1) m2) (edgeList li2) = some c.shared_faces2 ∧
      optMapM (cofaceEntry (buildRevMap m2) m1 e.upper_adjs) (edgeList ui1) =
        some c.shared_cofaces1 ∧
      c.nodes = n ∧ c.edges = e ∧ c.triangles = t ∧ c.y = y := by
  obtain ⟨hcons, hn, he, ht, hy⟩ := init_inv_tables h
  obtain ⟨m0, m1, m2, li1, li2, ui0, ui1, hm0, hm1, hm2, hli1, hli2, hui0, hui1,
    hsf1, hsc0, hsf2, hsc1⟩ := consolidate_inv hcons
  exact ⟨m0, m1, m2, li1, li2, ui0, ui1, hm0, hm1, hm2, hli1, hli2, hui0, hui1,
    hsf1, hsc0, hsf2, hsc1, hn, he, ht, hy⟩

/-- A successful `cofaceEntry` must have dereferenced `upper_adjs`. -/
theorem cofaceEntry_adjs_isSome {rev : List (List Nat × Nat)}
    {m : List (List Nat)} {adjs : Option AdjDict} {ed : Nat × Nat} {w : Nat}
    (h : cofaceEntry rev m adjs ed = some w) : adjs.isSome = true := by
  unfold cofaceEntry at h
  cases hna : m[ed.1]? <;> rw [hna] at h
  · exact Option.noConfusion h
  cases hnb : m[ed.2]? <;> rw [hnb] at h
  · exact Option.noConfusion h
  cases hd : adjs <;> rw [hd] at h
  · exact Option.noConfusion h
  · rfl

/-- A simplex with no incoming edge on a side keeps the zero row there. -/
theorem propagateSide_zero (m : Nat) (idx : Option AdjIndex) (x : Mat) (i : Nat)
    (hi : i < x.length) (h : noIncoming idx i = true) :
    (propagateSide m idx x).getD i [] = zeroVec m := by
  cases idx with
  | none => exact getD_replicate hi []
  | some v =>
    rw [propagateSide_some m v x i hi]
    have hnil : (edgeList v).filter (fun e => e.2 = i) = [] := by
      simp only [noIncoming, List.all_eq_true, bne_iff_ne, ne_eq] at h
      refine List.filter_eq_nil_iff.mpr ?_
      intro e he
      simpa using h e he
    rw [hnil]
    rfl

/-- Inversion of a successful feature gather. -/
theorem selectFeatures_ok {fo : Option Mat} {tbl : List Nat} {v : Option Mat}
    (h : selectFeatures fo tbl = Except.ok v) :
    (fo = none ∧ v = none) ∨
    ∃ f sel, fo = some f ∧ index_select f tbl = some sel ∧ v = some sel := by
  cases hf : fo <;> rw [hf] at h
  · simp only [selectFeatures] at h
    exact Or.inl ⟨rfl, (Except.ok.inj h).symm⟩
  case some f =>
  simp only [selectFeatures] at h
  cases hsel : index_select f tbl <;> rw [hsel] at h
  · exact Except.noConfusion h
  case some sel =>
  exact Or.inr ⟨f, sel, rfl, hsel, (Except.ok.inj h).symm⟩

/-- A failed feature gather always carries the index error, never the
unsupported-order error. -/
theorem selectFeatures_error {fo : Option Mat} {tbl : List Nat} {ε : GErr}
    (h : selectFeatures fo tbl = Except.error ε) : ε = GErr.indexError := by
  cases hf : fo <;> rw [hf] at h
  · simp only [selectFeatures] at h
    exact Except.noConfusion h
  case some f =>
  simp only [selectFeatures] at h
  cases hsel : index_select f tbl <;> rw [hsel] at h
  · exact (Except.error.inj h).symm
  · exact Except.noConfusion h

/-- An element located by `getElem?` is a member of the list. -/
theorem mem_of_getElem?_eq_some {α : Type} {l : List α} {i : Nat} {a : α}
    (h : l[i]? = some a) : a ∈ l := by
  obtain ⟨hlt, rfl⟩ := List.getElem?_eq_some.mp h
  exact List.getElem_mem hlt

/-! ### Claims about the message-passing engine -/

/-- Claim C1: in every call to `propagate`, a simplex with no incoming edge
in `up_index` — including the case `up_index = None` — receives as its
`up_msg` row the zero vector of width `up_msg_size`; symmetrically, a
simplex with no incoming edge in `down_index` receives the zero vector of
width `down_msg_size` as its `down_msg` row.  The rule is per-simplex, not
only when the whole index is absent. -/
theorem claim1_no_incoming_zero_msg (cmp : ChainMessagePassing)
    (ui di : Option AdjIndex) (x : Mat) (ua da : Option Mat) (i : Nat)
    (hi : i < x.length) :
    (noIncoming ui i = true →
      (cmp.propagate ui di x ua da).1.getD i [] = zeroVec cmp.up_msg_size) ∧
    (noIncoming di i = true →
      (cmp.propagate ui di x ua da).2.getD i [] = zeroVec cmp.down_msg_size) :=
  ⟨fun h => propagateSide_zero _ _ _ _ hi h,
   fun h => propagateSide_zero _ _ _ _ hi h⟩

/-- Witness for C1: simplex 0 receives only outgoing edges in the up index
and the down index is absent, so both message rows are zero. -/
theorem claim1_witness :
    (ChainMessagePassing.propagate ⟨1, 1⟩ (some ([0], [1])) none [[5], [7]]
        none none).1.getD 0 [] = zeroVec 1 ∧
    (ChainMessagePassing.propagate ⟨1, 1⟩ (some ([0], [1])) none [[5], [7]]
        none none).2.getD 0 [] = zeroVec 1 :=
  ⟨(claim1_no_incoming_zero_msg ⟨1, 1⟩ (some ([0], [1])) none [[5], [7]] none none 0
      (by decide)).1 (by decide),
   (claim1_no_incoming_zero_msg ⟨1, 1⟩ (some ([0], [1])) none [[5], [7]] none none 0
      (by decide)).2 (by decide)⟩

/-- Claim C4: in the house-graph scenario (6 edges, triangle = edges
{0,1,2}, square = edges {2,3,4,5}) with the indices, attributes and
features of the test data, `propagate` yields
`up_msg + down_msg = [[14], [14], [16], [9], [10], [10]]`. -/
theorem claim4_house_scenario :
    matAdd
      (ChainMessagePassing.propagate ⟨1, 1⟩ (some houseUp) (some houseDown) houseX
        (some houseUpAttr) (some houseDownAttr)).1
      (ChainMessagePassing.propagate ⟨1, 1⟩ (some houseUp) (some houseDown) houseX
        (some houseUpAttr) (some houseDownAttr)).2 =
    [[14], [14], [16], [9], [10], [10]] := by decide

/-- Claim C5: for every input to `propagate` and each present adjacency
index, the output row of a destination simplex is the exact left-to-right
sum of the messages of all directed edges pointing to it — duplicates all
contribute, with no averaging, no maximum and no deduplication. -/
theorem claim5_sum_aggregation (cmp : ChainMessagePassing)
    (ui di : Option AdjIndex) (x : Mat) (ua da : Option Mat)
    (i : Nat) (idx : AdjIndex) (hi : i < x.length) :
    (ui = some idx →
      (cmp.propagate ui di x ua da).1.getD i [] =
        ((edgeList idx).filter (fun e => e.2 = i)).foldl
          (fun acc e => vecAdd acc (x.getD e.1 (zeroVec cmp.up_msg_size)))
          (zeroVec cmp.up_msg_size)) ∧
    (di = some idx →
      (cmp.propagate ui di x ua da).2.getD i [] =
        ((edgeList idx).filter (fun e => e.2 = i)).foldl
          (fun acc e => vecAdd acc (x.getD e.1 (zeroVec cmp.down_msg_size)))
          (zeroVec cmp.down_msg_size)) := by
  constructor
  · rintro rfl
    exact propagateSide_some _ _ _ _ hi
  · rintro rfl
    exact propagateSide_some _ _ _ _ hi

/-- Witness for C5: two duplicate edges 0 → 1 both contribute to the row
of simplex 1, on both sides. -/
theorem claim5_witness :
    (ChainMessagePassing.propagate ⟨1, 1⟩ (some ([0, 0], [1, 1])) (some ([0, 0], [1, 1]))
        [[3], [4]] none none).1.getD 1 [] =
      ((edgeList ([0, 0], [1, 1])).filter (fun e => e.2 = 1)).foldl
        (fun acc e => vecAdd acc (([[3], [4]] : Mat).getD e.1 (zeroVec 1))) (zeroVec 1) ∧
    (ChainMessagePassing.propagate ⟨1, 1⟩ (some ([0, 0], [1, 1])) (some ([0, 0], [1, 1]))
        [[3], [4]] none none).2.getD 1 [] =
      ((edgeList ([0, 0], [1, 1])).filter (fun e => e.2 = 1)).foldl
        (fun acc e => vecAdd acc (([[3], [4]] : Mat).getD e.1 (zeroVec 1))) (zeroVec 1) :=
  ⟨(claim5_sum_aggregation ⟨1, 1⟩ (some ([0, 0], [1, 1])) (some ([0, 0], [1, 1]))
      [[3], [4]] none none 1 ([0, 0], [1, 1]) (by decide)).1 rfl,
   (claim5_sum_aggregation ⟨1, 1⟩ (some ([0, 0], [1, 1])) (some ([0, 0], [1, 1]))
      [[3], [4]] none none 1 ([0, 0], [1, 1]) (by decide)).2 rfl⟩

/-- Claim C6: in the two-triangles-sharing-an-edge scenario
(`up_index = None`, `down_index = [[0,1],[1,0]]`, `down_attr = [[1],[1]]`,
`x = [[32],[17]]`), `propagate` yields `up_msg + down_msg = [[17],[32]]`. -/
theorem claim6_two_triangles_scenario :
    matAdd
      (ChainMessagePassing.propagate ⟨1, 1⟩ none (some ([0, 1], [1, 0])) [[32], [17]]
        none (some [[1], [1]])).1
      (ChainMessagePassing.propagate ⟨1, 1⟩ none (some ([0, 1], [1, 0])) [[32], [17]]
        none (some [[1], [1]])).2 = [[17], [32]] := by decide

/-! ### Claims about the `Complex` data model -/

/-- Counterexample for C2: the reverse mapping the code builds is keyed by
the node tuple as stored in `mapping`, not by its sorted form.  With the
order-1 simplex {0,1} stored as the tuple (1,0), the sorted intersection
(0,1) of the two order-2 node sets resolves to id 0 in the sorted-keyed
reverse mapping the claim describes, but misses the as-stored-keyed mapping
the code builds, so construction errors instead of producing the described
`shared_faces` entry. -/
theorem claim2_counterexample :
    ue.mapping = some [[1, 0]] ∧
    ut.mapping = some [[0, 1, 2], [0, 1, 3]] ∧
    ut.lower_index = some ([0, 1], [1, 0]) ∧
    List.lookup (sortedNodeSet ([0, 1, 2].inter [0, 1, 3])) (specRevMap [[1, 0]]) =
      some 0 ∧
    List.lookup (sortedNodeSet ([0, 1, 2].inter [0, 1, 3])) (buildRevMap [[1, 0]]) =
      none ∧
    Complex.init un ue ut none = none := by decide

/-- Claim C2 (amended): consolidation builds, for each order, a reverse
mapping keyed by the node tuple of each simplex exactly as stored in the
chain's `mapping` (later rows shadow earlier duplicates); for every
lower-adjacency edge at order k+1, the `shared_faces[k+1]` entry at the
same position is the order-k id found by looking up the sorted intersection
of the endpoint node sets in that order-k reverse mapping, and for every
upper-adjacency edge at order k the `shared_cofaces[k]` entry at the same
position is the order-(k+1) id resolved through `upper_adjs`; entry order
matches edge order in the corresponding adjacency index. -/
theorem claim2_consolidation_tables (n e t : Chain) (y : Option (List Int))
    (c : Complex) (m0 m1 m2 : List (List Nat)) (li1 li2 ui0 ui1 : AdjIndex) (p : Nat)
    (hm0 : n.mapping = some m0) (hm1 : e.mapping = some m1) (hm2 : t.mapping = some m2)
    (hli1 : e.lower_index = some li1) (hli2 : t.lower_index = some li2)
    (hui0 : n.upper_index = some ui0) (hui1 : e.upper_index = some ui1)
    (hinit : Complex.init n e t y = some c) :
    c.shared_faces1.length = (edgeList li1).length ∧
    c.shared_faces2.length = (edgeList li2).length ∧
    c.shared_cofaces0.length = (edgeList ui0).length ∧
    c.shared_cofaces1.length = (edgeList ui1).length ∧
    c.shared_faces1[p]? = ((edgeList li1)[p]?).bind (faceEntry (buildRevMap m0) m1) ∧
    c.shared_faces2[p]? = ((edgeList li2)[p]?).bind (faceEntry (buildRevMap m1) m2) ∧
    c.shared_cofaces0[p]? =
      ((edgeList ui0)[p]?).bind (cofaceEntry (buildRevMap m1) m0 n.upper_adjs) ∧
    c.shared_cofaces1[p]? =
      ((edgeList ui1)[p]?).bind (cofaceEntry (buildRevMap m2) m1 e.upper_adjs) := by
  obtain ⟨m0', m1', m2', li1', li2', ui0', ui1', hm0', hm1', hm2', hli1', hli2',
    hui0', hui1', hsf1, hsc0, hsf2, hsc1, _, _, _, _⟩ := init_inv hinit
  obtain rfl : m0' = m0 := Option.some.inj (hm0' ▸ hm0)
  obtain rfl : m1' = m1 := Option.some.inj (hm1' ▸ hm1)
  obtain rfl : m2' = m2 := Option.some.inj (hm2' ▸ hm2)
  obtain rfl : li1' = li1 := Option.some.inj (hli1' ▸ hli1)
  obtain rfl : li2' = li2 := Option.some.inj (hli2' ▸ hli2)
  obtain rfl : ui0' = ui0 := Option.some.inj (hui0' ▸ hui0)
  obtain rfl : ui1' = ui1 := Option.some.inj (hui1' ▸ hui1)
  exact ⟨optMapM_length hsf1, optMapM_length hsf2, optMapM_length hsc0,
    optMapM_length hsc1, optMapM_getElem? hsf1 p, optMapM_getElem? hsf2 p,
    optMapM_getElem? hsc0 p, optMapM_getElem? hsc1 p⟩

/-- Witness for C2 at the single-triangle complex, position 0. -/
theorem claim2_witness :
    tCF.shared_faces1.length = (edgeList ([], [])).length ∧
    tCF.shared_faces2.length = (edgeList ([], [])).length ∧
    tCF.shared_cofaces0.length = (edgeList ([], [])).length ∧
    tCF.shared_cofaces1.length = (edgeList ([0, 1], [1, 0])).length ∧
    tCF.shared_faces1[0]? =
      ((edgeList ([], []))[0]?).bind
        (faceEntry (buildRevMap [[0], [1], [2]]) [[0, 1], [0, 2], [1, 2]]) ∧
    tCF.shared_faces2[0]? =
      ((edgeList ([], []))[0]?).bind
        (faceEntry (buildRevMap [[0, 1], [0, 2], [1, 2]]) [[0, 1, 2]]) ∧
    tCF.shared_cofaces0[0]? =
      ((edgeList ([], []))[0]?).bind
        (cofaceEntry (buildRevMap [[0, 1], [0, 2], [1, 2]]) [[0], [1], [2]]
          tnF.upper_adjs) ∧
    tCF.shared_cofaces1[0]? =
      ((edgeList ([0, 1], [1, 0]))[0]?).bind
        (cofaceEntry (buildRevMap [[0, 1, 2]]) [[0, 1], [0, 2], [1, 2]]
          teF.upper_adjs) :=
  claim2_consolidation_tables tnF teF ttF (some [1]) tCF
    [[0], [1], [2]] [[0, 1], [0, 2], [1, 2]] [[0, 1, 2]]
    ([], []) ([], []) ([], []) ([0, 1], [1, 0]) 0
    rfl rfl rfl rfl rfl rfl rfl (by decide)

/-- Counterexample for C10: `upper_adjs` is dereferenced only inside the
per-edge loop, so a chain with `upper_adjs = None` and an empty upper
adjacency passes construction; the claim asserts such a construction must
fail. -/
theorem claim10_counterexample :
    dn.upper_adjs = none ∧ de.upper_adjs = none ∧
    Complex.init dn de dt none = some dC :=
  ⟨by decide, by decide, by decide⟩

/-- Claim C10 (amended): a successful `Complex` construction implies
`mapping` of every chain is present, `lower_index` of the chains at orders
1 and 2 is present, `upper_index` of the chains at orders 0 and 1 is
present, and `upper_adjs` of the chains at orders 0 and 1 is present
whenever the corresponding upper adjacency contains at least one edge
(`upper_adjs` is dereferenced only inside the per-edge loop, so with an
empty upper adjacency it may be `None`); contrapositively, construction
with any of the unconditionally dereferenced fields `None` — or with
`upper_adjs` `None` next to a nonempty upper adjacency — fails. -/
theorem claim10_field_presence (n e t : Chain) (y : Option (List Int)) (c : Complex)
    (hinit : Complex.init n e t y = some c) :
    n.mapping.isSome = true ∧ e.mapping.isSome = true ∧ t.mapping.isSome = true ∧
    e.lower_index.isSome = true ∧ t.lower_index.isSome = true ∧
    n.upper_index.isSome = true ∧ e.upper_index.isSome = true ∧
    (∀ ui0, n.upper_index = some ui0 → edgeList ui0 ≠ [] →
      n.upper_adjs.isSome = true) ∧
    (∀ ui1, e.upper_index = some ui1 → edgeList ui1 ≠ [] →
      e.upper_adjs.isSome = true) := by
  obtain ⟨m0, m1, m2, li1, li2, ui0, ui1, hm0, hm1, hm2, hli1, hli2, hui0, hui1,
    hsf1, hsc0, hsf2, hsc1, _, _, _, _⟩ := init_inv hinit
  refine ⟨by rw [hm0]; rfl, by rw [hm1]; rfl, by rw [hm2]; rfl, by rw [hli1]; rfl,
    by rw [hli2]; rfl, by rw [hui0]; rfl, by rw [hui1]; rfl, ?_, ?_⟩
  · intro ui0' hui0' hne
    obtain rfl : ui0 = ui0' := Option.some.inj (hui0 ▸ hui0')
    obtain ⟨ed, hed⟩ := List.exists_mem_of_ne_nil _ hne
    obtain ⟨w, hw⟩ := optMapM_mem_some hsc0 hed
    exact cofaceEntry_adjs_isSome hw
  · intro ui1' hui1' hne
    obtain rfl : ui1 = ui1' := Option.some.inj (hui1 ▸ hui1')
    obtain ⟨ed, hed⟩ := List.exists_mem_of_ne_nil _ hne
    obtain ⟨w, hw⟩ := optMapM_mem_some hsc1 hed
    exact cofaceEntry_adjs_isSome hw

/-- Witness for C10 at the single-triangle complex, whose order-1 upper
adjacency is nonempty. -/
theorem claim10_witness :
    tnF.mapping.isSome = true ∧ teF.mapping.isSome = true ∧
    ttF.mapping.isSome = true ∧ teF.lower_index.isSome = true ∧
    ttF.lower_index.isSome = true ∧ tnF.upper_index.isSome = true ∧
    teF.upper_index.isSome = true ∧
    (∀ ui0, tnF.upper_index = some ui0 → edgeList ui0 ≠ [] →
      tnF.upper_adjs.isSome = true) ∧
    (∀ ui1, teF.upper_index = some ui1 → edgeList ui1 ≠ [] →
      teF.upper_adjs.isSome = true) :=
  claim10_field_presence tnF teF ttF (some [1]) tCF (by decide)

/-- Claim C9: consolidation is idempotent and deterministic: the chains a
constructed complex stores are the unmodified input chains, and re-running
the consolidation derivation on them reproduces exactly the stored
`shared_faces` / `shared_cofaces` tables. -/
theorem claim9_idempotent_consolidation (n e t : Chain) (y : Option (List Int))
    (c : Complex) (hinit : Complex.init n e t y = some c) :
    c.nodes = n ∧ c.edges = e ∧ c.triangles = t ∧
    consolidate c.nodes c.edges c.triangles =
      some ⟨c.shared_faces1, c.shared_faces2, c.shared_cofaces0, c.shared_cofaces1⟩ := by
  obtain ⟨hcons, hn, he, ht, _⟩ := init_inv_tables hinit
  refine ⟨hn, he, ht, ?_⟩
  rw [hn, he, ht]
  exact hcons

/-- Witness for C9 at the single-triangle complex. -/
theorem claim9_witness :
    tCF.nodes = tnF ∧ tCF.edges = teF ∧ tCF.triangles = ttF ∧
    consolidate tCF.nodes tCF.edges tCF.triangles =
      some ⟨tCF.shared_faces1, tCF.shared_faces2, tCF.shared_cofaces0,
            tCF.shared_cofaces1⟩ :=
  claim9_idempotent_consolidation tnF teF ttF (some [1]) tCF (by decide)

/-- Claim C8: if during consolidation a computed face or coface node tuple
has no matching simplex id in the relevant reverse mapping, `Complex`
construction fails with an error; it never completes with misaligned
tables. -/
theorem claim8_malformed_consolidation (n e t : Chain) (y : Option (List Int))
    (hfail :
      (∃ (m0 m1 : List (List Nat)) (li1 : AdjIndex) (p : Nat) (ed : Nat × Nat)
          (na nb : List Nat),
        n.mapping = some m0 ∧ e.mapping = some m1 ∧ e.lower_index = some li1 ∧
        (edgeList li1)[p]? = some ed ∧
        m1[ed.1]? = some na ∧ m1[ed.2]? = some nb ∧
        List.lookup (sortedNodeSet (na.inter nb)) (buildRevMap m0) = none) ∨
      (∃ (m1 m2 : List (List Nat)) (li2 : AdjIndex) (p : Nat) (ed : Nat × Nat)
          (na nb : List Nat),
        e.mapping = some m1 ∧ t.mapping = some m2 ∧ t.lower_index = some li2 ∧
        (edgeList li2)[p]? = some ed ∧
        m2[ed.1]? = some na ∧ m2[ed.2]? = some nb ∧
        List.lookup (sortedNodeSet (na.inter nb)) (buildRevMap m1) = none) ∨
      (∃ (m0 m1 : List (List Nat)) (ui0 : AdjIndex) (p : Nat) (ed : Nat × Nat)
          (na nb : List Nat) (dd : AdjDict) (inner : List (List Nat × List Nat))
          (key : List Nat),
        n.mapping = some m0 ∧ e.mapping = some m1 ∧ n.upper_index = some ui0 ∧
        (edgeList ui0)[p]? = some ed ∧
        m0[ed.1]? = some na ∧ m0[ed.2]? = some nb ∧ n.upper_adjs = some dd ∧
        List.lookup na dd = some inner ∧ List.lookup nb inner = some key ∧
        List.lookup key (buildRevMap m1) = none) ∨
      (∃ (m1 m2 : List (List Nat)) (ui1 : AdjIndex) (p : Nat) (ed : Nat × Nat)
          (na nb : List Nat) (dd : AdjDict) (inner : List (List Nat × List Nat))
          (key : List Nat),
        e.mapping = some m1 ∧ t.mapping = some m2 ∧ e.upper_index = some ui1 ∧
        (edgeList ui1)[p]? = some ed ∧
        m1[ed.1]? = some na ∧ m1[ed.2]? = some nb ∧ e.upper_adjs = some dd ∧
        List.lookup na dd = some inner ∧ List.lookup nb inner = some key ∧
        List.lookup key (buildRevMap m2) = none)) :
    Complex.init n e t y = none := by
  cases hini : Complex.init n e t y
  · rfl
  case some c =>
  exfalso
  obtain ⟨m0', m1', m2', li1', li2', ui0', ui1', hm0', hm1', hm2', hli1', hli2',
    hui0', hui1', hsf1, hsc0, hsf2, hsc1, _, _, _, _⟩ := init_inv hini
  rcases hfail with
      ⟨m0, m1, li1, p, ed, na, nb, hm0, hm1, hli1, hed, hna, hnb, hlk⟩ |
      ⟨m1, m2, li2, p, ed, na, nb, hm1, hm2, hli2, hed, hna, hnb, hlk⟩ |
      ⟨m0, m1, ui0, p, ed, na, nb, dd, inner, key, hm0, hm1, hui0, hed, hna, hnb,
        hdd, hin, hkey, hlk⟩ |
      ⟨m1, m2, ui1, p, ed, na, nb, dd, inner, key, hm1, hm2, hui1, hed, hna, hnb,
        hdd, hin, hkey, hlk⟩
  · obtain rfl : m0' = m0 := Option.some.inj (hm0' ▸ hm0)
    obtain rfl : m1' = m1 := Option.some.inj (hm1' ▸ hm1)
    obtain rfl : li1' = li1 := Option.some.inj (hli1' ▸ hli1)
    obtain ⟨w, hw⟩ := optMapM_mem_some hsf1 (mem_of_getElem?_eq_some hed)
    simp only [faceEntry, Option.pure_def, Option.bind_eq_bind, Option.bind_eq_some]
      at hw
    obtain ⟨na', hna', nb', hnb', hlk'⟩ := hw
    obtain rfl : na' = na := Option.some.inj (hna' ▸ hna)
    obtain rfl : nb' = nb := Option.some.inj (hnb' ▸ hnb)
    rw [hlk] at hlk'
    exact Option.noConfusion hlk'
  · obtain rfl : m1' = m1 := Option.some.inj (hm1' ▸ hm1)
    obtain rfl : m2' = m2 := Option.some.inj (hm2' ▸ hm2)
    obtain rfl : li2' = li2 := Option.some.inj (hli2' ▸ hli2)
    obtain ⟨w, hw⟩ := optMapM_mem_some hsf2 (mem_of_getElem?_eq_some hed)
    simp only [faceEntry, Option.pure_def, Option.bind_eq_bind, Option.bind_eq_some]
      at hw
    obtain ⟨na', hna', nb', hnb', hlk'⟩ := hw
    obtain rfl : na' = na := Option.some.inj (hna' ▸ hna)
    obtain rfl : nb' = nb := Option.some.inj (hnb' ▸ hnb)
    rw [hlk] at hlk'
    exact Option.noConfusion hlk'
  · obtain rfl : m0' = m0 := Option.some.inj (hm0' ▸ hm0)
    obtain rfl : m1' = m1 := Option.some.inj (hm1' ▸ hm1)
    obtain rfl : ui0' = ui0 := Option.some.inj (hui0' ▸ hui0)
    obtain ⟨w, hw⟩ := optMapM_mem_some hsc0 (mem_of_getElem?_eq_some hed)
    simp only [cofaceEntry, Option.pure_def, Option.bind_eq_bind, Option.bind_eq_some]
      at hw
    obtain ⟨na', hna', nb', hnb', dd', hdd', inner', hin', key', hkey', hlk'⟩ := hw
    obtain rfl : na' = na := Option.some.inj (hna' ▸ hna)
    obtain rfl : nb' = nb := Option.some.inj (hnb' ▸ hnb)
    obtain rfl : dd' = dd := Option.some.inj (hdd' ▸ hdd)
    obtain rfl : inner' = inner := Option.some.inj (hin' ▸ hin)
    obtain rfl : key' = key := Option.some.inj (hkey' ▸ hkey)
    rw [hlk] at hlk'
    exact Option.noConfusion hlk'
  · obtain rfl : m1' = m1 := Option.some.inj (hm1' ▸ hm1)
    obtain rfl : m2' = m2 := Option.some.inj (hm2' ▸ hm2)
    obtain rfl : ui1' = ui1 := Option.some.inj (hui1' ▸ hui1)
    obtain ⟨w, hw⟩ := optMapM_mem_some hsc1 (mem_of_getElem?_eq_some hed)
    simp only [cofaceEntry, Option.pure_def, Option.bind_eq_bind, Option.bind_eq_some]
      at hw
    obtain ⟨na', hna', nb', hnb', dd', hdd', inner', hin', key', hkey', hlk'⟩ := hw
    obtain rfl : na' = na := Option.some.inj (hna' ▸ hna)
    obtain rfl : nb' = nb := Option.some.inj (hnb' ▸ hnb)
    obtain rfl : dd' = dd := Option.some.inj (hdd' ▸ hdd)
    obtain rfl : inner' = inner := Option.some.inj (hin' ▸ hin)
    obtain rfl : key' = key := Option.some.inj (hkey' ▸ hkey)
    rw [hlk] at hlk'
    exact Option.noConfusion hlk'

/-- Witness for C8: the triangles {0,1,2} and {0,1,3} are lower adjacent,
but their shared edge {0,1} is missing from the order-1 mapping, so the
face lookup misses and construction fails. -/
theorem claim8_witness : Complex.init dn fe dt none = none :=
  claim8_malformed_consolidation dn fe dt none
    (Or.inr (Or.inl ⟨[[0, 2]], [[0, 1, 2], [0, 1, 3]], ([0, 1], [1, 0]), 0, (0, 1),
      [0, 1, 2], [0, 1, 3], rfl, rfl, rfl, rfl, rfl, rfl, by decide⟩))

/-- Claim C7: `get_inputs` and `get_labels` return the unsupported-order
error exactly when the queried order lies outside
`[min_order, max_order] = [0, 2]`; the error is the surfaced result of the
call (never recovered internally), and `get_labels` with the order omitted
never errors and returns the complex-wide label. -/
theorem claim7_unsupported_order (c : Complex) (o : Int) :
    (c.get_inputs o = Except.error GErr.unsupportedOrder ↔ o < 0 ∨ 2 < o) ∧
    (c.get_labels (some o) = Except.error GErr.unsupportedOrder ↔ o < 0 ∨ 2 < o) ∧
    c.get_labels none = Except.ok c.y := by
  refine ⟨⟨?_, ?_⟩, ⟨?_, ?_⟩, rfl⟩
  · intro h
    by_contra hcon
    push_neg at hcon
    have ho : o = 0 ∨ o = 1 ∨ o = 2 := by omega
    rcases ho with rfl | rfl | rfl
    · unfold Complex.get_inputs at h
      rw [if_pos rfl] at h
      cases hs : selectFeatures c.edges.x c.shared_cofaces0 <;> rw [hs] at h <;>
        simp only [withSelected] at h
      · exact GErr.noConfusion (selectFeatures_error hs ▸ Except.error.inj h)
      · exact Except.noConfusion h
    · unfold Complex.get_inputs at h
      rw [if_neg (by decide), if_pos rfl] at h
      cases hs1 : selectFeatures c.triangles.x c.shared_cofaces1 <;> rw [hs1] at h <;>
        simp only [withSelected] at h
      · exact GErr.noConfusion (selectFeatures_error hs1 ▸ Except.error.inj h)
      · cases hs2 : selectFeatures c.nodes.x c.shared_faces1 <;> rw [hs2] at h <;>
          simp only [withSelected] at h
        · exact GErr.noConfusion (selectFeatures_error hs2 ▸ Except.error.inj h)
        · exact Except.noConfusion h
    · unfold Complex.get_inputs at h
      rw [if_neg (by decide), if_neg (by decide), if_pos rfl] at h
      cases hs : selectFeatures c.edges.x c.shared_faces2 <;> rw [hs] at h <;>
        simp only [withSelected] at h
      · exact GErr.noConfusion (selectFeatures_error hs ▸ Except.error.inj h)
      · exact Except.noConfusion h
  · intro h
    unfold Complex.get_inputs
    rw [if_neg (by omega), if_neg (by omega), if_neg (by omega)]
  · intro h
    by_contra hcon
    push_neg at hcon
    have ho : o = 0 ∨ o = 1 ∨ o = 2 := by omega
    simp only [Complex.get_labels, Complex.chain] at h
    rcases ho with rfl | rfl | rfl
    · rw [if_pos rfl] at h
      exact Except.noConfusion h
    · rw [if_neg (by decide), if_pos rfl] at h
      exact Except.noConfusion h
    · rw [if_neg (by decide), if_neg (by decide), if_pos rfl] at h
      exact Except.noConfusion h
  · intro h
    simp only [Complex.get_labels, Complex.chain]
    rw [if_neg (by omega), if_neg (by omega), if_neg (by omega)]

/-- Counterexample for C3: in the single-triangle complex whose order-2
features are absent, `get_inputs 1` still returns the stored upper
adjacency index (non-`None`) while `upper_features` is `None`; the claim
asserts both would be `None` whenever the order+1 features are absent. -/
theorem claim3_counterexample :
    ttN.x = none ∧
    Complex.init tnN teF ttN none = some tCN ∧
    tCN.get_inputs 1 = Except.ok tInN ∧
    tInN.upper_features = none ∧
    tInN.upper_index = some ([0, 1], [1, 0]) :=
  ⟨by decide, by decide, by decide, by decide, by decide⟩

/-- Claim C3 (amended): for a constructed complex and an in-range order for
which `get_inputs` succeeds: present upper neighbor features have exactly
one row per edge of the returned upper adjacency index, namely the rows of
the order+1 features selected positionally through `shared_cofaces[order]`;
at the top order both the upper index and the upper features are `None`,
and when the order+1 features are absent the upper features are `None`
(while the upper index is returned as stored); symmetrically for the lower
side with `shared_faces[order]`, the bottom order, and order-1 features. -/
theorem claim3_get_inputs_shapes (n e t : Chain) (y : Option (List Int))
    (c : Complex) (o : Int) (r : Inputs)
    (hinit : Complex.init n e t y = some c)
    (hr : c.get_inputs o = Except.ok r) :
    (∀ uf, r.upper_features = some uf →
      ∃ idx, r.upper_index = some idx ∧ uf.length = (edgeList idx).length ∧
        ∃ ch f tbl, c.chain (o + 1) = some ch ∧ ch.x = some f ∧
          c.scTable o = some tbl ∧ index_select f tbl = some uf) ∧
    (o = 2 → r.upper_index = none ∧ r.upper_features = none) ∧
    (∀ ch, c.chain (o + 1) = some ch → ch.x = none → r.upper_features = none) ∧
    (∀ lf, r.lower_features = some lf →
      ∃ idx, r.lower_index = some idx ∧ lf.length = (edgeList idx).length ∧
        ∃ ch f tbl, c.chain (o - 1) = some ch ∧ ch.x = some f ∧
          c.sfTable o = some tbl ∧ index_select f tbl = some lf) ∧
    (o = 0 → r.lower_index = none ∧ r.lower_features = none) ∧
    (∀ ch, c.chain (o - 1) = some ch → ch.x = none → r.lower_features = none) := by
  obtain ⟨m0, m1, m2, li1, li2, ui0, ui1, hm0, hm1, hm2, hli1, hli2, hui0, hui1,
    hsf1, hsc0, hsf2, hsc1, hn, he, ht, _⟩ := init_inv hinit
  by_cases h0 : o = 0
  · subst h0
    unfold Complex.get_inputs at hr
    rw [if_pos rfl] at hr
    cases hs : selectFeatures c.edges.x c.shared_cofaces0 <;> rw [hs] at hr <;>
      simp only [withSelected] at hr
    · exact Except.noConfusion hr
    next ufo =>
    obtain rfl : r = ⟨c.nodes.x, c.nodes.upper_index, ufo, none, none⟩ :=
      (Except.ok.inj hr).symm
    refine ⟨?_, ?_, ?_, ?_, ?_, ?_⟩
    · intro uf huf
      rcases selectFeatures_ok hs with ⟨_, hv⟩ | ⟨f, sel, hex, hisel, hv⟩
      · rw [hv] at huf
        exact Option.noConfusion huf
      · obtain rfl : sel = uf := Option.some.inj (hv ▸ huf)
        have hisel' : optMapM (fun i => f[i]?) c.shared_cofaces0 = some sel := hisel
        refine ⟨ui0, by rw [hn]; exact hui0, ?_,
          c.edges, f, c.shared_cofaces0, rfl, hex, rfl, hisel⟩
        rw [optMapM_length hisel', optMapM_length hsc0]
    · intro h02
      exact absurd h02 (by decide)
    · intro ch hch hchx
      obtain rfl : c.edges = ch := Option.some.inj hch
      rcases selectFeatures_ok hs with ⟨_, hv⟩ | ⟨f, sel, hex, _, _⟩
      · exact hv
      · rw [hchx] at hex
        exact Option.noConfusion hex
    · intro lf hlf
      exact Option.noConfusion hlf
    · intro _
      exact ⟨rfl, rfl⟩
    · intro ch hch _
      exact Option.noConfusion hch
  by_cases h1 : o = 1
  · subst h1
    unfold Complex.get_inputs at hr
    rw [if_neg (by decide), if_pos rfl] at hr
    cases hs1 : selectFeatures c.triangles.x c.shared_cofaces1 <;> rw [hs1] at hr <;>
      simp only [withSelected] at hr
    · exact Except.noConfusion hr
    next ufo =>
    cases hs2 : selectFeatures c.nodes.x c.shared_faces1 <;> rw [hs2] at hr <;>
      simp only [withSelected] at hr
    · exact Except.noConfusion hr
    next lfo =>
    obtain rfl : r = ⟨c.edges.x, c.edges.upper_index, ufo, c.edges.lower_index, lfo⟩ :=
      (Except.ok.inj hr).symm
    refine ⟨?_, ?_, ?_, ?_, ?_, ?_⟩
    · intro uf huf
      rcases selectFeatures_ok hs1 with ⟨_, hv⟩ | ⟨f, sel, hex, hisel, hv⟩
      · rw [hv] at huf
        exact Option.noConfusion huf
      · obtain rfl : sel = uf := Option.some.inj (hv ▸ huf)
        have hisel' : optMapM (fun i => f[i]?) c.shared_cofaces1 = some sel := hisel
        refine ⟨ui1, by rw [he]; exact hui1, ?_,
          c.triangles, f, c.shared_cofaces1, rfl, hex, rfl, hisel⟩
        rw [optMapM_length hisel', optMapM_length hsc1]
    · intro h12
      exact absurd h12 (by decide)
    · intro ch hch hchx
      obtain rfl : c.triangles = ch := Option.some.inj hch
      rcases selectFeatures_ok hs1 with ⟨_, hv⟩ | ⟨f, sel, hex, _, _⟩
      · exact hv
      · rw [hchx] at hex
        exact Option.noConfusion hex
    · intro lf hlf
      rcases selectFeatures_ok hs2 with ⟨_, hv⟩ | ⟨f, sel, hex, hisel, hv⟩
      · rw [hv] at hlf
        exact Option.noConfusion hlf
      · obtain rfl : sel = lf := Option.some.inj (hv ▸ hlf)
        have hisel' : optMapM (fun i => f[i]?) c.shared_faces1 = some sel := hisel
        refine ⟨li1, by rw [he]; exact hli1, ?_,
          c.nodes, f, c.shared_faces1, rfl, hex, rfl, hisel⟩
        rw [optMapM_length hisel', optMapM_length hsf1]
    · intro h10
      exact absurd h10 (by decide)
    · intro ch hch hchx
      obtain rfl : c.nodes = ch := Option.some.inj hch
      rcases selectFeatures_ok hs2 with ⟨_, hv⟩ | ⟨f, sel, hex, _, _⟩
      · exact hv
      · rw [hchx] at hex
        exact Option.noConfusion hex
  by_cases h2 : o = 2
  · subst h2
    unfold Complex.get_inputs at hr
    rw [if_neg (by decide), if_neg (by decide), if_pos rfl] at hr
    cases hs : selectFeatures c.edges.x c.shared_faces2 <;> rw [hs] at hr <;>
      simp only [withSelected] at hr
    · exact Except.noConfusion hr
    next lfo =>
    obtain rfl : r = ⟨c.triangles.x, none, none, c.triangles.lower_index, lfo⟩ :=
      (Except.ok.inj hr).symm
    refine ⟨?_, ?_, ?_, ?_, ?_, ?_⟩
    · intro uf huf
      exact Option.noConfusion huf
    · intro _
      exact ⟨rfl, rfl⟩
    · intro ch hch _
      exact Option.noConfusion hch
    · intro lf hlf
      rcases selectFeatures_ok hs with ⟨_, hv⟩ | ⟨f, sel, hex, hisel, hv⟩
      · rw [hv] at hlf
        exact Option.noConfusion hlf
      · obtain rfl : sel = lf := Option.some.inj (hv ▸ hlf)
        have hisel' : optMapM (fun i => f[i]?) c.shared_faces2 = some sel := hisel
        refine ⟨li2, by rw [ht]; exact hli2, ?_,
          c.edges, f, c.shared_faces2, rfl, hex, rfl, hisel⟩
        rw [optMapM_length hisel', optMapM_length hsf2]
    · intro h20
      exact absurd h20 (by decide)
    · intro ch hch hchx
      obtain rfl : c.edges = ch := Option.some.inj hch
      rcases selectFeatures_ok hs with ⟨_, hv⟩ | ⟨f, sel, hex, _, _⟩
      · exact hv
      · rw [hchx] at hex
        exact Option.noConfusion hex
  · exfalso
    unfold Complex.get_inputs at hr
    rw [if_neg h0, if_neg h1, if_neg h2] at hr
    exact Except.noConfusion hr

/-- Witness for C3 at the single-triangle complex with features, order 1. -/
theorem claim3_witness :
    (∀ uf, tInF.upper_features = some uf →
      ∃ idx, tInF.upper_index = some idx ∧ uf.length = (edgeList idx).length ∧
        ∃ ch f tbl, tCF.chain (1 + 1) = some ch ∧ ch.x = some f ∧
          tCF.scTable 1 = some tbl ∧ index_select f tbl = some uf) ∧
    ((1 : Int) = 2 → tInF.upper_index = none ∧ tInF.upper_features = none) ∧
    (∀ ch, tCF.chain (1 + 1) = some ch → ch.x = none →
      tInF.upper_features = none) ∧
    (∀ lf, tInF.lower_features = some lf →
      ∃ idx, tInF.lower_index = some idx ∧ lf.length = (edgeList idx).length ∧
        ∃ ch f tbl, tCF.chain (1 - 1) = some ch ∧ ch.x = some f ∧
          tCF.sfTable 1 = some tbl ∧ index_select f tbl = some lf) ∧
    ((1 : Int) = 0 → tInF.lower_index = none ∧ tInF.lower_features = none) ∧
    (∀ ch, tCF.chain (1 - 1) = some ch → ch.x = none →
      tInF.lower_features = none) :=
  claim3_get_inputs_shapes tnF teF ttF (some [1]) tCF 1 tInF (by decide) (by decide)

end CWN
